import Mathlib

/-!
Verification of the HTTP-Header-Security-Analyzer core (`internal/analyzer.go`):
header-presence evaluation, weighted scoring with tiered bonuses, URL
normalization and grade derivation, shallowly embedded in Lean.
-/

namespace HeaderAnalyzer

/-- A fetched response's headers, as ordered name–value pairs (Go's
`http.Header` stores, per canonical key, the values in arrival order;
`Header.Get` returns the first value for a key, looked up
case-insensitively). -/
abbrev RespHeaders := List (String × String)

/-- `SecurityHeader` from `analyzer.go`: one catalog entry (and also one
summary row, via the `present` field). -/
structure SecurityHeader where
  name : String
  present : Bool := false
  description : String
  weight : Nat
  aliases : List String := []
deriving DecidableEq, Repr

/-- `AnalysisResult` from `analyzer.go`. The Go `Headers` map is keyed by
the catalog names, which are pairwise distinct; it is modelled as an
association list in catalog order. -/
structure AnalysisResult where
  headers : List (String × Bool)
  score : Nat
  grade : String
  summary : List SecurityHeader
  url : String
deriving DecidableEq, Repr

/-- ASCII-lowercased character list of a string, the comparison key used by
Go's canonical MIME header key lookup. -/
def lowerChars (s : String) : List Char := s.data.map Char.toLower

/-- Case-insensitive header-name equality, as effected by Go
`http.Header.Get`'s canonical-key lookup. -/
def headerNameEq (a b : String) : Bool := lowerChars a == lowerChars b

/-- Model of `resp.Header.Get(key)`: the first value whose name matches
`key` case-insensitively, or `""` when there is none. -/
def headerGet (resp : RespHeaders) (key : String) : String :=
  match resp.find? (fun p => headerNameEq p.1 key) with
  | some p => p.2
  | none => ""

/-- Model of Go `strings.HasPrefix s pre` (literal, case-sensitive). -/
def hasPrefix (s pre : String) : Bool := pre.data.isPrefixOf s.data

/-- The static catalog `securityHeaders` from `analyzer.go`. -/
def securityHeaders : List SecurityHeader :=
  [ { name := "Strict-Transport-Security"
    , description := "Forces HTTPS connections to protect against man-in-the-middle attacks."
    , weight := 20 }
  , { name := "X-Content-Type-Options"
    , description := "Prevents MIME-sniffing attacks by enforcing declared content types."
    , weight := 15 }
  , { name := "X-Frame-Options"
    , description := "Protects against clickjacking by controlling iframe embedding."
    , weight := 15 }
  , { name := "Content-Security-Policy"
    , description := "Helps prevent XSS attacks by defining allowed content sources."
    , weight := 20
    , aliases := ["Content-Security-Policy-Report-Only"] }
  , { name := "Referrer-Policy"
    , description := "Controls how much referrer information is shared with requests."
    , weight := 15 }
  , { name := "Permissions-Policy"
    , description := "Controls which browser features and APIs can be used."
    , weight := 10
    , aliases := ["Feature-Policy"] }
  , { name := "Cross-Origin-Opener-Policy"
    , description := "Prevents cross-origin attacks by isolating browsing context."
    , weight := 8 }
  , { name := "Cross-Origin-Resource-Policy"
    , description := "Protects resources from being loaded by other origins."
    , weight := 7 } ]

/-- `isHeaderPresent` from `analyzer.go`: the canonical name's first value
is non-empty, or some alias's first value is non-empty. -/
def isHeaderPresent (resp : RespHeaders) (header : SecurityHeader) : Bool :=
  (headerGet resp header.name != "") ||
    header.aliases.any (fun al => headerGet resp al != "")

/-- Modelled from the spec's words (§4.3), for comparison with
`isHeaderPresent`: the canonical name or some alias appears in the
response, case-insensitively, with at least one non-empty value. -/
def presentSpec (resp : RespHeaders) (header : SecurityHeader) : Bool :=
  resp.any (fun p =>
    (headerNameEq p.1 header.name ||
      header.aliases.any (fun al => headerNameEq p.1 al)) && p.2 != "")

/-- The URL normalization at the top of `AnalyzeURL`. -/
def normalizeURL (url : String) : String :=
  if !(hasPrefix url "http://") && !(hasPrefix url "https://") then
    "https://" ++ url
  else url

/-- `totalWeight` accumulated over the catalog loop of `AnalyzeURL`. -/
def totalWeight : Nat :=
  securityHeaders.foldl (fun acc h => acc + h.weight) 0

/-- `achievedWeight` accumulated over the catalog loop of `AnalyzeURL`. -/
def achievedWeight (resp : RespHeaders) : Nat :=
  securityHeaders.foldl
    (fun acc h => if isHeaderPresent resp h then acc + h.weight else acc) 0

/-- `headerScore` of `AnalyzeURL`: `(achievedWeight * 70) / totalWeight`
when `totalWeight > 0`, else 0 (Go integer division; operands here are
nonnegative, so Nat division coincides with Go's truncation). -/
def headerScore (resp : RespHeaders) : Nat :=
  if totalWeight > 0 then achievedWeight resp * 70 / totalWeight else 0

/-- `httpsScore` of `AnalyzeURL`: 30 when the (normalized) URL starts with
"https://", else 0. -/
def httpsScore (url : String) : Nat :=
  if hasPrefix url "https://" then 30 else 0

/-- The summary list built in the catalog loop of `AnalyzeURL`. -/
def summaryOf (resp : RespHeaders) : List SecurityHeader :=
  securityHeaders.map (fun h => { h with present := isHeaderPresent resp h })

/-- The critical-header name list of `countCriticalHeaders`. -/
def criticalHeaderNames : List String :=
  ["Strict-Transport-Security", "X-Content-Type-Options", "X-Frame-Options"]

/-- The important-header name list of `countImportantHeaders`. -/
def importantHeaderNames : List String :=
  ["Content-Security-Policy", "Referrer-Policy"]

/-- `countCriticalHeaders` from `analyzer.go` (the inner loop breaks after
the first matching critical name, hence `any`). -/
def countCriticalHeaders (summary : List SecurityHeader) : Nat :=
  summary.foldl
    (fun count h =>
      if criticalHeaderNames.any (fun c => h.name == c && h.present) then
        count + 1
      else count) 0

/-- `countImportantHeaders` from `analyzer.go`. -/
def countImportantHeaders (summary : List SecurityHeader) : Nat :=
  summary.foldl
    (fun count h =>
      if importantHeaderNames.any (fun c => h.name == c && h.present) then
        count + 1
      else count) 0

/-- The critical bonus block of `AnalyzeURL`: for a positive count,
`(count*10)/3` clamped to 10; nothing is added for a zero count. -/
def criticalBonus (criticalCount : Nat) : Nat :=
  if criticalCount > 0 then
    if criticalCount * 10 / 3 > 10 then 10 else criticalCount * 10 / 3
  else 0

/-- The important bonus block of `AnalyzeURL`: for a positive count,
`(count*5)/2` clamped to 5; nothing is added for a zero count. -/
def importantBonus (importantCount : Nat) : Nat :=
  if importantCount > 0 then
    if importantCount * 5 / 2 > 5 then 5 else importantCount * 5 / 2
  else 0

/-- The score of `AnalyzeURL` just before the cap at 100. -/
def rawScore (url : String) (resp : RespHeaders) : Nat :=
  headerScore resp + httpsScore url
    + criticalBonus (countCriticalHeaders (summaryOf resp))
    + importantBonus (countImportantHeaders (summaryOf resp))

/-- The final score of `AnalyzeURL`: the raw score capped at 100. -/
def finalScore (url : String) (resp : RespHeaders) : Nat :=
  if rawScore url resp > 100 then 100 else rawScore url resp

/-- `calculateGrade` from `analyzer.go` (Go `int` argument). -/
def calculateGrade (score : Int) : String :=
  if score ≥ 80 then "A"
  else if score ≥ 65 then "B"
  else if score ≥ 45 then "C"
  else if score ≥ 25 then "D"
  else "F"

/-- The pure part of `AnalyzeURL` after a successful fetch: build the
result from the (already normalized) URL and the response headers. -/
def analyzeResponse (url : String) (resp : RespHeaders) : AnalysisResult :=
  { headers := (summaryOf resp).map (fun h => (h.name, h.present))
  , score := finalScore url resp
  , grade := calculateGrade (finalScore url resp)
  , summary := summaryOf resp
  , url := url }

/-- `AnalyzeURL` from `analyzer.go`, with the network fetch abstracted as
an oracle from the normalized URL to either the response headers or a
fetch error. -/
def AnalyzeURL (fetch : String → Except String RespHeaders)
    (url : String) : Except String AnalysisResult :=
  let nurl := normalizeURL url
  match fetch nurl with
  | Except.error e => Except.error e
  | Except.ok resp => Except.ok (analyzeResponse nurl resp)

/-- Rank of a grade letter, for stating monotonicity of grading. -/
def gradeValue (g : String) : Nat :=
  if g = "A" then 4
  else if g = "B" then 3
  else if g = "C" then 2
  else if g = "D" then 1
  else 0

/-- A response carrying `X-Frame-Options` twice, first with an empty
value: `Header.Get` sees only the empty first value. -/
def dupXFO : RespHeaders := [("X-Frame-Options", ""), ("X-Frame-Options", "DENY")]

/-- Scenario C response: exactly the three Critical-tier headers, each
with a non-empty value. -/
def scenarioC : RespHeaders :=
  [ ("Strict-Transport-Security", "max-age=31536000")
  , ("X-Content-Type-Options", "nosniff")
  , ("X-Frame-Options", "DENY") ]

/-- A single-header response whose name is sent in lower case, used to
witness the case-insensitive presence check. -/
def lowerCaseResp : RespHeaders := [("strict-transport-security", "max-age=63072000")]

/-- On a response whose header names are pairwise distinct (even up to
case), `Header.Get`'s answer being non-empty is the same as some entry of
that name carrying a non-empty value. -/
theorem headerGet_eq_any (resp : RespHeaders)
    (hnd : (resp.map (fun p => lowerChars p.1)).Nodup) (n : String) :
    (headerGet resp n != "") =
      resp.any (fun p => headerNameEq p.1 n && p.2 != "") := by
  induction resp with
  | nil => rfl
  | cons q rest ih =>
    rw [List.map_cons, List.nodup_cons] at hnd
    by_cases hq : headerNameEq q.1 n = true
    · have hget : headerGet (q :: rest) n = q.2 := by
        simp [headerGet, List.find?, hq]
      rw [hget, List.any_cons, hq, Bool.true_and]
      by_cases hv : (q.2 != "") = true
      · rw [hv, Bool.true_or]
      · have hrest : rest.any (fun p => headerNameEq p.1 n && p.2 != "") = false := by
          rw [Bool.eq_false_iff]
          intro hany
          obtain ⟨p, hp, hpn⟩ := List.any_eq_true.mp hany
          rw [Bool.and_eq_true] at hpn
          have hpq : lowerChars p.1 = lowerChars q.1 := by
            have h1 : lowerChars p.1 = lowerChars n := beq_iff_eq.mp hpn.1
            have h2 : lowerChars q.1 = lowerChars n := beq_iff_eq.mp hq
            rw [h1, h2]
          exact hnd.1 (hpq ▸ List.mem_map_of_mem (fun p => lowerChars p.1) hp)
        rw [hrest, Bool.or_false]
    · have hget : headerGet (q :: rest) n = headerGet rest n := by
        simp [headerGet, List.find?, hq]
      rw [hget, List.any_cons, Bool.eq_false_iff.mpr hq, Bool.false_and,
        Bool.false_or]
      exact ih hnd.2

/-- C1 counterexample: for the catalog entry `X-Frame-Options` and a
response that carries `X-Frame-Options` twice, first with an empty value
and then with `"DENY"`, the presence check returns false although the
header appears in the response with a non-empty value. -/
theorem isHeaderPresent_dup_counterex :
    isHeaderPresent dupXFO (securityHeaders.get ⟨2, by decide⟩) = false ∧
    presentSpec dupXFO (securityHeaders.get ⟨2, by decide⟩) = true := by
  decide

/-- C1 (amended): on every response in which no header name occurs twice
(case-insensitively) — in particular, with no multi-valued headers — the
presence check returns true iff the canonical name or some alias appears
with a non-empty value; the lookup is case-insensitive and an empty-valued
header counts as absent. In general the check consults only the first
value carried by each name. -/
theorem isHeaderPresent_eq_presentSpec (resp : RespHeaders)
    (hnd : (resp.map (fun p => lowerChars p.1)).Nodup)
    (header : SecurityHeader) :
    isHeaderPresent resp header = presentSpec resp header := by
  unfold isHeaderPresent presentSpec
  simp only [headerGet_eq_any resp hnd]
  rw [Bool.eq_iff_iff]
  simp only [Bool.or_eq_true, List.any_eq_true, Bool.and_eq_true]
  constructor
  · rintro (⟨p, hp, hname, hv⟩ | ⟨al, hal, p, hp, hm, hv⟩)
    · exact ⟨p, hp, Or.inl hname, hv⟩
    · exact ⟨p, hp, Or.inr ⟨al, hal, hm⟩, hv⟩
  · rintro ⟨p, hp, hname | ⟨al, hal, hm⟩, hv⟩
    · exact Or.inl ⟨p, hp, hname, hv⟩
    · exact Or.inr ⟨al, hal, p, hp, hm, hv⟩

/-- C1 witness: a concrete duplicate-free response, sent with a
lower-cased header name, on which the presence check agrees with the
spec's description and detects `Strict-Transport-Security`. -/
theorem isHeaderPresent_eq_presentSpec_witness :
    (lowerCaseResp.map (fun p => lowerChars p.1)).Nodup ∧
    isHeaderPresent lowerCaseResp (securityHeaders.get ⟨0, by decide⟩) =
      presentSpec lowerCaseResp (securityHeaders.get ⟨0, by decide⟩) ∧
    isHeaderPresent lowerCaseResp (securityHeaders.get ⟨0, by decide⟩) = true :=
  ⟨by decide,
   isHeaderPresent_eq_presentSpec lowerCaseResp (by decide) _,
   by decide⟩

/-- C2: for input URL "example.com" and a response with exactly the three
Critical-tier headers present (non-empty values), the analysis normalizes
the URL to "https://example.com" and yields headerScore 31, httpsScore 30,
criticalBonus 10, importantBonus 0, score 71 and grade "B". -/
theorem scenarioC_analysis :
    normalizeURL "example.com" = "https://example.com" ∧
    (summaryOf scenarioC).map (fun h => h.present) =
      [true, true, true, false, false, false, false, false] ∧
    achievedWeight scenarioC = 50 ∧
    totalWeight = 110 ∧
    headerScore scenarioC = 50 * 70 / 110 ∧
    headerScore scenarioC = 31 ∧
    httpsScore "https://example.com" = 30 ∧
    criticalBonus (countCriticalHeaders (summaryOf scenarioC)) = 10 ∧
    importantBonus (countImportantHeaders (summaryOf scenarioC)) = 0 ∧
    (analyzeResponse (normalizeURL "example.com") scenarioC).score = 71 ∧
    (analyzeResponse (normalizeURL "example.com") scenarioC).grade = "B" ∧
    (analyzeResponse (normalizeURL "example.com") scenarioC).url =
      "https://example.com" := by
  decide

/-- Rank of the grade produced for a given integer score, written as a
nested conditional for arithmetic reasoning. -/
theorem gradeValue_calculateGrade (s : Int) :
    gradeValue (calculateGrade s) =
      if 80 ≤ s then 4
      else if 65 ≤ s then 3
      else if 45 ≤ s then 2
      else if 25 ≤ s then 1
      else 0 := by
  unfold calculateGrade
  split_ifs <;> decide

/-- Grading never ranks a lower score above a higher one. -/
theorem gradeValue_mono {s t : Int} (hst : s ≤ t) :
    gradeValue (calculateGrade s) ≤ gradeValue (calculateGrade t) := by
  rw [gradeValue_calculateGrade, gradeValue_calculateGrade]
  split_ifs <;> omega

/-- C3: the grade is a total function of the integer score with
contiguous, non-overlapping, exhaustive ranges — "A" iff s ≥ 80, "B" iff
65 ≤ s < 80, "C" iff 45 ≤ s < 65, "D" iff 25 ≤ s < 45, "F" iff s < 25 —
and it is monotonic in the score. -/
theorem calculateGrade_ranges (s : Int) :
    (calculateGrade s = "A" ↔ 80 ≤ s) ∧
    (calculateGrade s = "B" ↔ 65 ≤ s ∧ s < 80) ∧
    (calculateGrade s = "C" ↔ 45 ≤ s ∧ s < 65) ∧
    (calculateGrade s = "D" ↔ 25 ≤ s ∧ s < 45) ∧
    (calculateGrade s = "F" ↔ s < 25) ∧
    ∀ t : Int, s ≤ t →
      gradeValue (calculateGrade s) ≤ gradeValue (calculateGrade t) := by
  refine ⟨?_, ?_, ?_, ?_, ?_, fun t hst => gradeValue_mono hst⟩ <;>
    (unfold calculateGrade
     split_ifs <;>
       first
         | exact iff_of_true rfl (by omega)
         | exact iff_of_false (by decide) (by omega))

/-- C3 witness: the tie scores 80 and 65 land in the higher bucket, and
grading 65 against 80 respects monotonicity. -/
theorem calculateGrade_ranges_witness :
    calculateGrade 80 = "A" ∧ calculateGrade 65 = "B" ∧
    gradeValue (calculateGrade 65) ≤ gradeValue (calculateGrade 80) :=
  ⟨((calculateGrade_ranges 80).1).mpr (by decide),
   ((calculateGrade_ranges 65).2.1).mpr (by decide),
   (calculateGrade_ranges 65).2.2.2.2.2 80 (by decide)⟩

/-- C4: the produced score always lies in 0..100 — it is a sum of
nonnegative contributions (modelled in Nat, as every Go summand is
nonnegative), equals that sum when the sum is at most 100, and is capped
to exactly 100 otherwise. -/
theorem score_in_range (url : String) (resp : RespHeaders) :
    0 ≤ (analyzeResponse url resp).score ∧
    (analyzeResponse url resp).score ≤ 100 ∧
    (rawScore url resp ≤ 100 →
      (analyzeResponse url resp).score = rawScore url resp) ∧
    (100 < rawScore url resp → (analyzeResponse url resp).score = 100) := by
  have hs : (analyzeResponse url resp).score = finalScore url resp := rfl
  rw [hs]
  unfold finalScore
  split_ifs with h
  · exact ⟨Nat.zero_le _, le_refl 100, fun hle => by omega, fun _ => rfl⟩
  · exact ⟨Nat.zero_le _, by omega, fun _ => rfl, fun hlt => by omega⟩

/-- C4 witness: on Scenario C the raw sum is 71 ≤ 100 and the final score
equals it. -/
theorem score_in_range_witness :
    (analyzeResponse "https://example.com" scenarioC).score ≤ 100 ∧
    rawScore "https://example.com" scenarioC ≤ 100 ∧
    (analyzeResponse "https://example.com" scenarioC).score =
      rawScore "https://example.com" scenarioC :=
  ⟨(score_in_range "https://example.com" scenarioC).2.1, by decide,
   (score_in_range "https://example.com" scenarioC).2.2.1 (by decide)⟩

/-- C5: URL normalization is total — an input without a literal
case-sensitive "http://" or "https://" prefix gets "https://" prepended,
any other input passes through unchanged — and the normalized string is
echoed in the result's url field. -/
theorem normalizeURL_spec (s : String) (resp : RespHeaders) :
    (hasPrefix s "http://" = false → hasPrefix s "https://" = false →
      normalizeURL s = "https://" ++ s) ∧
    (hasPrefix s "http://" = true ∨ hasPrefix s "https://" = true →
      normalizeURL s = s) ∧
    (analyzeResponse (normalizeURL s) resp).url = normalizeURL s := by
  refine ⟨?_, ?_, rfl⟩
  · intro h1 h2
    unfold normalizeURL
    rw [h1, h2]
    rfl
  · intro h
    unfold normalizeURL
    rcases h with h | h <;> simp [h]

/-- C5 witness: "example.com" is prefixed with "https://", while
"http://x.io" passes through unchanged. -/
theorem normalizeURL_spec_witness :
    normalizeURL "example.com" = "https://" ++ "example.com" ∧
    normalizeURL "http://x.io" = "http://x.io" :=
  ⟨(normalizeURL_spec "example.com" []).1 (by decide) (by decide),
   (normalizeURL_spec "http://x.io" []).2.1 (Or.inl (by decide))⟩

/-- C6: the bonuses follow the exact integer-division tiering — for a
positive critical count the bonus is min 10 (count*10/3), so 3, 6, 10 for
counts 1, 2, 3, and 0 for count 0; for a positive important count the
bonus is min 5 (count*5/2), so 2 and 5 for counts 1 and 2, and 0
otherwise. -/
theorem bonus_tiering (c i : Nat) :
    (0 < c → criticalBonus c = min 10 (c * 10 / 3)) ∧
    criticalBonus 0 = 0 ∧ criticalBonus 1 = 3 ∧
    criticalBonus 2 = 6 ∧ criticalBonus 3 = 10 ∧
    (0 < i → importantBonus i = min 5 (i * 5 / 2)) ∧
    importantBonus 0 = 0 ∧ importantBonus 1 = 2 ∧ importantBonus 2 = 5 := by
  refine ⟨?_, by decide, by decide, by decide, by decide, ?_,
    by decide, by decide, by decide⟩
  · intro hc
    unfold criticalBonus
    rw [if_pos hc]
    split_ifs <;> omega
  · intro hi
    unfold importantBonus
    rw [if_pos hi]
    split_ifs <;> omega

/-- C6 witness: the min formulas instantiated at counts 2 and 1. -/
theorem bonus_tiering_witness :
    criticalBonus 2 = min 10 (2 * 10 / 3) ∧
    importantBonus 1 = min 5 (1 * 5 / 2) :=
  ⟨(bonus_tiering 2 1).1 (by decide),
   (bonus_tiering 2 1).2.2.2.2.2.1 (by decide)⟩

/-- C7: every result carries one summary entry per catalog entry (length
8) in catalog order, with that entry's name, description, weight, aliases
and computed presence; and the headers association holds exactly the 8
canonical catalog names, each paired with the corresponding summary
entry's presence boolean. -/
theorem result_shape (url : String) (resp : RespHeaders) :
    (analyzeResponse url resp).summary.length = 8 ∧
    (analyzeResponse url resp).summary.map (fun h => h.name) =
      securityHeaders.map (fun h => h.name) ∧
    (analyzeResponse url resp).summary.map (fun h => h.description) =
      securityHeaders.map (fun h => h.description) ∧
    (analyzeResponse url resp).summary.map (fun h => h.weight) =
      securityHeaders.map (fun h => h.weight) ∧
    (analyzeResponse url resp).summary.map (fun h => h.aliases) =
      securityHeaders.map (fun h => h.aliases) ∧
    (analyzeResponse url resp).summary.map (fun h => h.present) =
      securityHeaders.map (fun h => isHeaderPresent resp h) ∧
    (analyzeResponse url resp).headers.map (fun p => p.1) =
      securityHeaders.map (fun h => h.name) ∧
    (analyzeResponse url resp).headers =
      (analyzeResponse url resp).summary.map (fun h => (h.name, h.present)) :=
  ⟨rfl, rfl, rfl, rfl, rfl, rfl, rfl, rfl⟩

/-- C8: the analysis either propagates the fetch error untouched, with no
result, or returns the fully populated analysis of the fetched headers,
with no error; no third outcome exists. -/
theorem analyzeURL_dichotomy (fetch : String → Except String RespHeaders)
    (url : String) :
    (∃ e, fetch (normalizeURL url) = Except.error e ∧
      AnalyzeURL fetch url = Except.error e) ∨
    (∃ resp, fetch (normalizeURL url) = Except.ok resp ∧
      AnalyzeURL fetch url =
        Except.ok (analyzeResponse (normalizeURL url) resp)) := by
  cases h : fetch (normalizeURL url) with
  | error e => exact Or.inl ⟨e, rfl, by simp [AnalyzeURL, h]⟩
  | ok resp => exact Or.inr ⟨resp, rfl, by simp [AnalyzeURL, h]⟩

/-- Folding an indicator-guarded accumulation over pointwise-implied
predicates, from pointwise-ordered starting values, is monotone. -/
theorem foldl_if_mono {α : Type} (p q : α → Bool) (w : α → Nat) :
    ∀ (l : List α), (∀ x ∈ l, p x = true → q x = true) →
    ∀ (n m : Nat), n ≤ m →
      List.foldl (fun acc x => if p x then acc + w x else acc) n l ≤
      List.foldl (fun acc x => if q x then acc + w x else acc) m l := by
  intro l
  induction l with
  | nil =>
    intro _ n m h
    simpa using h
  | cons a l ih =>
    intro hpq n m hnm
    simp only [List.foldl_cons]
    refine ih (fun x hx => hpq x (List.mem_cons_of_mem a hx)) _ _ ?_
    by_cases hp : p a = true
    · rw [if_pos hp, if_pos (hpq a (List.mem_cons_self a l) hp)]
      omega
    · rw [if_neg hp]
      split_ifs <;> omega

/-- Making more headers present never lowers the achieved weight. -/
theorem achievedWeight_mono (resp resp' : RespHeaders)
    (hmono : ∀ h ∈ securityHeaders,
      isHeaderPresent resp h = true → isHeaderPresent resp' h = true) :
    achievedWeight resp ≤ achievedWeight resp' :=
  foldl_if_mono (fun h => isHeaderPresent resp h)
    (fun h => isHeaderPresent resp' h) (fun h => h.weight)
    securityHeaders hmono 0 0 (le_refl 0)

/-- The critical-header count over the summary, re-expressed as a fold
over the catalog itself. -/
theorem countCritical_eq (resp : RespHeaders) :
    countCriticalHeaders (summaryOf resp) =
      securityHeaders.foldl
        (fun count h =>
          if criticalHeaderNames.any
              (fun c => h.name == c && isHeaderPresent resp h) then
            count + 1
          else count) 0 := by
  unfold countCriticalHeaders summaryOf
  rw [List.foldl_map]

/-- The important-header count over the summary, re-expressed as a fold
over the catalog itself. -/
theorem countImportant_eq (resp : RespHeaders) :
    countImportantHeaders (summaryOf resp) =
      securityHeaders.foldl
        (fun count h =>
          if importantHeaderNames.any
              (fun c => h.name == c && isHeaderPresent resp h) then
            count + 1
          else count) 0 := by
  unfold countImportantHeaders summaryOf
  rw [List.foldl_map]

/-- Making more headers present never lowers the critical count. -/
theorem countCritical_mono (resp resp' : RespHeaders)
    (hmono : ∀ h ∈ securityHeaders,
      isHeaderPresent resp h = true → isHeaderPresent resp' h = true) :
    countCriticalHeaders (summaryOf resp) ≤
      countCriticalHeaders (summaryOf resp') := by
  rw [countCritical_eq, countCritical_eq]
  refine foldl_if_mono _ _ (fun _ => 1) securityHeaders ?_ 0 0 (le_refl 0)
  intro h hh hp
  obtain ⟨c, hc, hand⟩ := List.any_eq_true.mp hp
  rw [Bool.and_eq_true] at hand
  refine List.any_eq_true.mpr ⟨c, hc, ?_⟩
  rw [Bool.and_eq_true]
  exact ⟨hand.1, hmono h hh hand.2⟩

/-- Making more headers present never lowers the important count. -/
theorem countImportant_mono (resp resp' : RespHeaders)
    (hmono : ∀ h ∈ securityHeaders,
      isHeaderPresent resp h = true → isHeaderPresent resp' h = true) :
    countImportantHeaders (summaryOf resp) ≤
      countImportantHeaders (summaryOf resp') := by
  rw [countImportant_eq, countImportant_eq]
  refine foldl_if_mono _ _ (fun _ => 1) securityHeaders ?_ 0 0 (le_refl 0)
  intro h hh hp
  obtain ⟨c, hc, hand⟩ := List.any_eq_true.mp hp
  rw [Bool.and_eq_true] at hand
  refine List.any_eq_true.mpr ⟨c, hc, ?_⟩
  rw [Bool.and_eq_true]
  exact ⟨hand.1, hmono h hh hand.2⟩

/-- The critical bonus is monotone in the critical count. -/
theorem criticalBonus_mono {a b : Nat} (hab : a ≤ b) :
    criticalBonus a ≤ criticalBonus b := by
  unfold criticalBonus
  split_ifs <;> omega

/-- The important bonus is monotone in the important count. -/
theorem importantBonus_mono {a b : Nat} (hab : a ≤ b) :
    importantBonus a ≤ importantBonus b := by
  unfold importantBonus
  split_ifs <;> omega

/-- The capped score is monotone in presence, for a fixed URL. -/
theorem finalScore_mono (url : String) (resp resp' : RespHeaders)
    (hmono : ∀ h ∈ securityHeaders,
      isHeaderPresent resp h = true → isHeaderPresent resp' h = true) :
    finalScore url resp ≤ finalScore url resp' := by
  have hraw : rawScore url resp ≤ rawScore url resp' := by
    unfold rawScore
    have h1 : headerScore resp ≤ headerScore resp' := by
      unfold headerScore
      have hw := achievedWeight_mono resp resp' hmono
      split_ifs
      · exact Nat.div_le_div_right (by omega)
      · exact le_refl 0
    have h2 := criticalBonus_mono (countCritical_mono resp resp' hmono)
    have h3 := importantBonus_mono (countImportant_mono resp resp' hmono)
    omega
  unfold finalScore
  split_ifs <;> omega

/-- C9: for a fixed normalized URL, if every catalog header judged present
for one response is also judged present for another, the score computed
for the first is at most the score for the second, and the grade never
drops. -/
theorem score_monotone (url : String) (resp resp' : RespHeaders)
    (hmono : ∀ h ∈ securityHeaders,
      isHeaderPresent resp h = true → isHeaderPresent resp' h = true) :
    (analyzeResponse url resp).score ≤ (analyzeResponse url resp').score ∧
    gradeValue (analyzeResponse url resp).grade ≤
      gradeValue (analyzeResponse url resp').grade := by
  have hfs : finalScore url resp ≤ finalScore url resp' :=
    finalScore_mono url resp resp' hmono
  exact ⟨hfs, gradeValue_mono (Int.ofNat_le.mpr hfs)⟩

/-- C9 witness: the empty response is dominated by Scenario C's response,
and both the score and grade rank respect that. -/
theorem score_monotone_witness :
    (∀ h ∈ securityHeaders,
      isHeaderPresent [] h = true → isHeaderPresent scenarioC h = true) ∧
    (analyzeResponse "https://example.com" []).score ≤
      (analyzeResponse "https://example.com" scenarioC).score ∧
    gradeValue (analyzeResponse "https://example.com" []).grade ≤
      gradeValue (analyzeResponse "https://example.com" scenarioC).grade :=
  ⟨by decide,
   (score_monotone "https://example.com" [] scenarioC (by decide)).1,
   (score_monotone "https://example.com" [] scenarioC (by decide)).2⟩

/-- C10: for every URL with the "https://" prefix the score is at least 30
whatever the response headers, so the grade is never "F". -/
theorem https_floor (url : String) (resp : RespHeaders)
    (hurl : hasPrefix url "https://" = true) :
    30 ≤ (analyzeResponse url resp).score ∧
    (analyzeResponse url resp).grade ≠ "F" := by
  have hhs : httpsScore url = 30 := by
    unfold httpsScore
    rw [hurl]
    rfl
  have hraw : 30 ≤ rawScore url resp := by
    unfold rawScore
    omega
  have hfs : 30 ≤ finalScore url resp := by
    unfold finalScore
    split_ifs <;> omega
  refine ⟨hfs, ?_⟩
  show calculateGrade (finalScore url resp : Int) ≠ "F"
  unfold calculateGrade
  split_ifs <;> first | decide | (exfalso; omega)

/-- C10 witness: the https scheme alone, with no headers at all, already
yields a score of at least 30 and a grade other than "F". -/
theorem https_floor_witness :
    hasPrefix "https://example.com" "https://" = true ∧
    30 ≤ (analyzeResponse "https://example.com" []).score ∧
    (analyzeResponse "https://example.com" []).grade ≠ "F" :=
  ⟨by decide,
   (https_floor "https://example.com" [] (by decide)).1,
   (https_floor "https://example.com" [] (by decide)).2⟩

end HeaderAnalyzer
